import Mathlib

/-!
Shallow embedding of src/api/check_gemini_keys.py.

Strings are modelled as lists of characters.  Python floats (the monotonic
clock readings and the minimum interval) are modelled as rationals.  The
result of json.loads is modelled by an explicit JSON value tree, passed
alongside the raw body text (none when decoding fails).  Python exceptions
are modelled with Except.
-/

def s2l (s : String) : List Char := s.data

/-- Whitespace characters stripped by Python str.strip (ASCII range). -/
def isPySpace (c : Char) : Bool :=
  c = ' ' || c = '\t' || c = '\n' || c = '\r' || c = '\x0b' || c = '\x0c'

/-- Model of Python str.strip(). -/
def pyStrip (s : List Char) : List Char :=
  ((s.dropWhile isPySpace).reverse.dropWhile isPySpace).reverse

/-- Model of Python str.lower() (ASCII case folding). -/
def pyLower (s : List Char) : List Char := s.map Char.toLower

def startsWithL : List Char → List Char → Bool
  | [], _ => true
  | _ :: _, [] => false
  | a :: as, b :: bs => a == b && startsWithL as bs

/-- Model of the Python substring test: needle in hay. -/
def containsSub (needle : List Char) : List Char → Bool
  | [] => startsWithL needle []
  | c :: t => startsWithL needle (c :: t) || containsSub needle t

/-- Embedding of is_exhausted (check_gemini_keys.py lines 51-55); http_code
is the status text produced by str on the integer status. -/
def is_exhausted (body http_code : List Char) : Bool :=
  if http_code = s2l "429" then true
  else
    containsSub (s2l "resource_exhausted") (pyLower body) ||
      containsSub (s2l "quota") (pyLower body)

/-- Embedding of the is_ok computation inside check_key (line 182):
http_code == "200" and not exhausted. -/
def classify_ok (body http_code : List Char) : Bool :=
  decide (http_code = s2l "200") && !(is_exhausted body http_code)

/-- JSON values as produced by json.loads. -/
inductive JValue where
  | null : JValue
  | bool : Bool → JValue
  | num : Int → JValue
  | str : List Char → JValue
  | arr : List JValue → JValue
  | obj : List (List Char × JValue) → JValue

/-- Python exceptions that the body of extract_response_text can raise on
unexpected shapes. -/
inductive PyErr where
  | attributeError : PyErr
  | indexError : PyErr
  | keyError : PyErr
  | typeError : PyErr
  deriving DecidableEq

/-- Python truthiness of a JSON value. -/
def truthy : JValue → Bool
  | JValue.null => false
  | JValue.bool b => b
  | JValue.num n => decide (n ≠ 0)
  | JValue.str s => !s.isEmpty
  | JValue.arr xs => !xs.isEmpty
  | JValue.obj fs => !fs.isEmpty

/-- Lookup of a string key in the fields of a JSON object (dict.get). -/
def assocLookup : List (List Char × JValue) → List Char → Option JValue
  | [], _ => none
  | (k, v) :: rest, key => if k = key then some v else assocLookup rest key

/-- Model of the Python idiom x or default: default when x is absent or
falsy. -/
def pyOr (v : Option JValue) (default : JValue) : JValue :=
  match v with
  | some x => if truthy x then x else default
  | none => default

/-- Model of the Python subscript x[0]: first element of a list, first
character of a string; KeyError on a dict (JSON object keys are strings, so
the integer 0 is never present); TypeError on the other values. -/
def subscript0 : JValue → Except PyErr JValue
  | JValue.arr [] => Except.error PyErr.indexError
  | JValue.arr (x :: _) => Except.ok x
  | JValue.str [] => Except.error PyErr.indexError
  | JValue.str (c :: _) => Except.ok (JValue.str [c])
  | JValue.obj _ => Except.error PyErr.keyError
  | _ => Except.error PyErr.typeError

/-- Model of the Python call x.get(key): an AttributeError unless x is a
dict. -/
def pyGet : JValue → List Char → Except PyErr (Option JValue)
  | JValue.obj fs, key => Except.ok (assocLookup fs key)
  | _, _ => Except.error PyErr.attributeError

/-- Lines 65-72 of extract_response_text: the candidates branch, given the
fields of the parsed top-level object.  ok (some t) models an early return
of t; ok none models falling through to the error branch. -/
def candidatesPhase (fields : List (List Char × JValue)) :
    Except PyErr (Option (List Char)) :=
  let candidates := pyOr (assocLookup fields (s2l "candidates")) (JValue.arr [])
  if truthy candidates then
    match subscript0 candidates with
    | Except.error e => Except.error e
    | Except.ok c0 =>
      match pyGet c0 (s2l "content") with
      | Except.error e => Except.error e
      | Except.ok contentOpt =>
        let content := pyOr contentOpt (JValue.obj [])
        match pyGet content (s2l "parts") with
        | Except.error e => Except.error e
        | Except.ok partsOpt =>
          let parts := pyOr partsOpt (JValue.arr [])
          if truthy parts then
            match subscript0 parts with
            | Except.error e => Except.error e
            | Except.ok p0 =>
              match p0 with
              | JValue.obj p0fields =>
                match assocLookup p0fields (s2l "text") with
                | some (JValue.str t) => Except.ok (some (pyStrip t))
                | _ => Except.ok none
              | _ => Except.ok none
          else Except.ok none
  else Except.ok none

/-- Lines 73-76 of extract_response_text: the error branch, reached when the
candidates branch returned nothing; falls back to the raw body. -/
def errorPhase (fields : List (List Char × JValue)) (raw : List Char) :
    Except PyErr (List Char) :=
  let err := pyOr (assocLookup fields (s2l "error")) (JValue.obj [])
  match pyGet err (s2l "message") with
  | Except.error e => Except.error e
  | Except.ok msgOpt =>
    match msgOpt with
    | some (JValue.str m) => Except.ok (pyStrip m)
    | _ => Except.ok (pyStrip raw)

/-- Embedding of extract_response_text (lines 58-78): raw is the body text
and payload the result of json.loads on it (none when decoding fails, which
the source catches and answers with the stripped raw text).  Python
attribute, subscript and key errors on unexpected shapes are modelled with
Except.error. -/
def extract_response_text (raw : List Char) (payload : Option JValue) :
    Except PyErr (List Char) :=
  match payload with
  | none => Except.ok (pyStrip raw)
  | some p =>
    match p with
    | JValue.obj fields =>
      match candidatesPhase fields with
      | Except.error e => Except.error e
      | Except.ok (some t) => Except.ok t
      | Except.ok none => errorPhase fields raw
    | _ => Except.ok (pyStrip raw)

/-- The network layer under run_request: urlopen for one key, returning the
body and status text, or the reason of a URLError.  An HTTPError is already
a (body, status) outcome here, because run_request catches it and reads its
body.  The model id and prompt of the source are fixed inside the
transport. -/
abbrev Transport := List Char → Except (List Char) (List Char × List Char)

/-- Embedding of run_request (lines 32-48): a URLError is re-raised as a
RuntimeError whose text carries the "request failed: " prefix. -/
def run_request (transport : Transport) (key : List Char) :
    Except (List Char) (List Char × List Char) :=
  match transport key with
  | Except.ok bodycode => Except.ok bodycode
  | Except.error reason => Except.error (s2l "request failed: " ++ reason)

structure ProbeResult where
  index : Nat
  key : List Char
  is_ok : Bool
  response_text : List Char
  deriving DecidableEq

/-- An exception escaping check_key: the RuntimeError of run_request or an
exception raised inside extract_response_text. -/
inductive TaskErr where
  | runtime : List Char → TaskErr
  | py : PyErr → TaskErr
  deriving DecidableEq

/-- Embedding of check_key (lines 178-189).  The rate limiter wait performed
first does not affect the returned value and is modelled separately. -/
def check_key (index : Nat) (key : List Char) (transport : Transport)
    (parse : List Char → Option JValue) : Except TaskErr ProbeResult :=
  match run_request transport key with
  | Except.error msg => Except.error (TaskErr.runtime msg)
  | Except.ok (body, http_code) =>
    match extract_response_text body (parse body) with
    | Except.error e => Except.error (TaskErr.py e)
    | Except.ok t => Except.ok ⟨index, key, classify_ok body http_code, t⟩

/-- Embedding of RateLimiter.__init__ (line 162): the stored interval is
clamped to be nonnegative. -/
def RateLimiter_init (min_interval : ℚ) : ℚ := max 0 min_interval

/-- Observable behaviour of one wait() call: the sleep duration (0 when it
does not sleep), the instant at which the call returns control, and the
committed _last_time field. -/
structure WaitResult where
  slept : ℚ
  grant : ℚ
  last : ℚ
  deriving DecidableEq

/-- Embedding of RateLimiter.wait (lines 166-175) as one critical section:
last is the _last_time field on entry and now the time.monotonic() reading
taken under the lock. -/
def RateLimiter_wait (min_interval last now : ℚ) : WaitResult :=
  if min_interval ≤ 0 then ⟨0, now, last⟩
  else
    let next := last + min_interval
    if now < next then ⟨next - now, next, next⟩
    else ⟨0, now, now⟩

/-- Grant times of a run of successive wait() calls: the lock serializes the
critical sections, so a run is a fold over the clock readings the calls
make, threading the _last_time field. -/
def grantTimes (min_interval : ℚ) : ℚ → List ℚ → List ℚ
  | _, [] => []
  | last, now :: rest =>
    let w := RateLimiter_wait min_interval last now
    w.grant :: grantTimes min_interval w.last rest

def enumFromN {α : Type} (n : Nat) : List α → List (Nat × α)
  | [] => []
  | x :: xs => (n, x) :: enumFromN (n + 1) xs

/-- Embedding of the submission loop of main (lines 211-215): one task per
key, carrying its 1-based index. -/
def submittedTasks (keys : List (List Char)) : List (Nat × List Char) :=
  enumFromN 1 keys

/-- Embedding of line 205: max_workers = min(args.max_workers, total). -/
def effective_max_workers (configured total : Nat) : Nat := min configured total

abbrev ProbeTask := Nat × List Char × Except TaskErr ProbeResult

/-- The futures of one run with their results: task i holds check_key on the
i-th key (1-based). -/
def runTasks (keys : List (List Char)) (transport : Transport)
    (parse : List Char → Option JValue) : List ProbeTask :=
  (enumFromN 1 keys).map (fun ik => (ik.1, ik.2, check_key ik.1 ik.2 transport parse))

/-- The mutable aggregation state of main (lines 201-203). -/
structure AggState where
  passed : Nat
  failed : Nat
  active_keys : List (List Char)
  deriving DecidableEq

def initAgg : AggState := ⟨0, 0, []⟩

/-- Representative str(exc) text for exceptions other than the RuntimeError
raised by run_request; the exact interpreter wording of these is immaterial
to every claim. -/
def pyErrStr : PyErr → List Char
  | PyErr.attributeError => s2l "AttributeError"
  | PyErr.indexError => s2l "IndexError"
  | PyErr.keyError => s2l "KeyError"
  | PyErr.typeError => s2l "TypeError"

def strOfExc : TaskErr → List Char
  | TaskErr.runtime msg => msg
  | TaskErr.py e => pyErrStr e

/-- Embedding of the try/except around future.result() (lines 218-224): an
exception becomes is_ok false with the exception text as diagnostic. -/
def resolveOutcome : Except TaskErr ProbeResult → Bool × List Char
  | Except.ok r => (r.is_ok, r.response_text)
  | Except.error e => (false, strOfExc e)

def taskOk (it : ProbeTask) : Bool := (resolveOutcome it.2.2).1

def taskKey (it : ProbeTask) : List Char := it.2.1

/-- Embedding of the per-completion bookkeeping (lines 226-232). -/
def processCompleted (st : AggState) (it : ProbeTask) : AggState :=
  if taskOk it then ⟨st.passed + 1, st.failed, st.active_keys ++ [taskKey it]⟩
  else ⟨st.passed, st.failed + 1, st.active_keys⟩

/-- Embedding of the as_completed loop (lines 216-232) over a given
completion order. -/
def aggregateFrom (st : AggState) (items : List ProbeTask) : AggState :=
  items.foldl processCompleted st

/-- The raw body text of a well-formed success envelope with text "Hi". -/
def rawHi : List Char :=
  s2l "\x7b\"candidates\":[\x7b\"content\":\x7b\"parts\":[\x7b\"text\":\"Hi\"\x7d]\x7d\x7d]\x7d"

/-- json.loads of rawHi. -/
def envHi : JValue :=
  JValue.obj [(s2l "candidates",
    JValue.arr [JValue.obj [(s2l "content",
      JValue.obj [(s2l "parts",
        JValue.arr [JValue.obj [(s2l "text", JValue.str (s2l "Hi"))]])])]])]

def rawErr : List Char := s2l "\x7b\"error\":\x7b\"message\":\"bad key\"\x7d\x7d"

/-- json.loads of rawErr. -/
def envErr : JValue :=
  JValue.obj [(s2l "error", JValue.obj [(s2l "message", JValue.str (s2l "bad key"))])]

/-- Body whose candidates list has a non-object first element. -/
def rawBadCandidate : List Char := s2l "\x7b\"candidates\": [1]\x7d"

/-- json.loads of rawBadCandidate. -/
def envBadCandidate : JValue :=
  JValue.obj [(s2l "candidates", JValue.arr [JValue.num 1])]

/-- Body whose first candidate text is the empty string while an error
message is also present. -/
def rawEmptyText : List Char :=
  s2l "\x7b\"candidates\":[\x7b\"content\":\x7b\"parts\":[\x7b\"text\":\"\"\x7d]\x7d\x7d],\"error\":\x7b\"message\":\"bad key\"\x7d\x7d"

/-- json.loads of rawEmptyText. -/
def envEmptyText : JValue :=
  JValue.obj [(s2l "candidates",
    JValue.arr [JValue.obj [(s2l "content",
      JValue.obj [(s2l "parts",
        JValue.arr [JValue.obj [(s2l "text", JValue.str [])]])])]]),
    (s2l "error", JValue.obj [(s2l "message", JValue.str (s2l "bad key"))])]

/-- Provider envelope whose first candidate's first part is p0, with extra
top-level fields after the candidates field. -/
def envParts0 (p0 : JValue) (extra : List (List Char × JValue)) : JValue :=
  JValue.obj ((s2l "candidates",
    JValue.arr [JValue.obj [(s2l "content",
      JValue.obj [(s2l "parts", JValue.arr [p0])])]]) :: extra)

/-- A top-level error field with a string message. -/
def errField (m : List Char) : List Char × JValue :=
  (s2l "error", JValue.obj [(s2l "message", JValue.str m)])

/-- Mock transport of the end-to-end scenario: 200 with a valid body for key
A, 429 with an empty body for key B, 403 with body denied for key C. -/
def mockTransport : Transport := fun key =>
  if key = s2l "A" then Except.ok (rawHi, s2l "200")
  else if key = s2l "B" then Except.ok ([], s2l "429")
  else Except.ok (s2l "denied", s2l "403")

/-- json.loads on the bodies of the scenario: rawHi parses to envHi; the
empty body and the body denied are not valid JSON. -/
def mockParse : List Char → Option JValue := fun raw =>
  if raw = rawHi then some envHi else none

def keysABC : List (List Char) := [s2l "A", s2l "B", s2l "C"]

theorem startsWithL_iff (n : List Char) :
    ∀ h, startsWithL n h = true ↔ ∃ r, h = n ++ r := by
  induction n with
  | nil =>
    intro h
    simp [startsWithL]
  | cons a as ih =>
    intro h
    cases h with
    | nil => simp [startsWithL]
    | cons b bs =>
      simp only [startsWithL, Bool.and_eq_true, beq_iff_eq, ih, List.cons_append,
        List.cons.injEq]
      constructor
      · rintro ⟨rfl, r, rfl⟩
        exact ⟨r, rfl, rfl⟩
      · rintro ⟨r, rfl, rfl⟩
        exact ⟨rfl, r, rfl⟩

theorem containsSub_iff (n : List Char) :
    ∀ h, containsSub n h = true ↔ ∃ l r, h = l ++ n ++ r := by
  intro h
  induction h with
  | nil =>
    simp only [containsSub, startsWithL_iff]
    constructor
    · rintro ⟨r, hr⟩
      exact ⟨[], r, hr⟩
    · rintro ⟨l, r, hr⟩
      rcases List.append_eq_nil.mp (List.append_eq_nil.mp hr.symm).1 with ⟨h1, h2⟩
      subst h1
      exact ⟨r, by simpa using hr⟩
  | cons c t ih =>
    simp only [containsSub, Bool.or_eq_true, startsWithL_iff, ih]
    constructor
    · rintro (⟨r, hr⟩ | ⟨l, r, hr⟩)
      · exact ⟨[], r, by simpa using hr⟩
      · exact ⟨c :: l, r, by simp [hr]⟩
    · rintro ⟨l, r, hr⟩
      cases l with
      | nil =>
        exact Or.inl ⟨r, by simpa using hr⟩
      | cons c0 l0 =>
        rcases List.cons.injEq .. ▸ hr with ⟨rfl, ht⟩
        exact Or.inr ⟨l0, r, ht⟩

/-- C1: is_exhausted holds exactly when the status text is 429 or the
lower-cased body contains resource_exhausted or quota as a substring, and
the is_ok classification of check_key holds exactly when the status text is
200 and the outcome is not exhausted. -/
theorem prober_classification_ok (body http_code : List Char) :
    (is_exhausted body http_code = true ↔
      http_code = s2l "429" ∨
      (∃ l r, pyLower body = l ++ s2l "resource_exhausted" ++ r) ∨
      (∃ l r, pyLower body = l ++ s2l "quota" ++ r)) ∧
    (classify_ok body http_code = true ↔
      http_code = s2l "200" ∧ is_exhausted body http_code = false) := by
  constructor
  · unfold is_exhausted
    by_cases h : http_code = s2l "429"
    · simp [h]
    · simp [h, containsSub_iff]
  · unfold classify_ok
    simp [Bool.and_eq_true, Bool.not_eq_true']

/-- C2: diagnostic extraction can raise on an unexpected body shape.  On the
body rawBadCandidate, whose candidates list has the number 1 as its first
element, the source evaluates candidates[0].get and raises AttributeError
instead of degrading to a diagnostic string: the first candidate is guarded
by no isinstance check, unlike parts[0]. -/
theorem extract_raises_on_non_object_candidate :
    extract_response_text rawBadCandidate (some envBadCandidate) =
      Except.error PyErr.attributeError := by
  rfl

/-- C3 counterexample: on a body whose first candidate carries the empty
string in its text field while an error message bad key is also present, the
claim predicts the message bad key (the text field is not non-empty), but
the code returns the empty string, because the source accepts any string
text, empty included. -/
theorem extract_empty_text_shadows_error :
    extract_response_text rawEmptyText (some envEmptyText) =
      Except.ok ([] : List Char) ∧
    pyStrip (s2l "bad key") = s2l "bad key" ∧
    s2l "bad key" ≠ ([] : List Char) := by
  refine ⟨rfl, rfl, ?_⟩
  decide

/-- C3 amended: extraction order on bodies of the expected shape.  A body
that fails to parse yields the raw text trimmed; a parsed envelope whose
first candidate's first part carries a string text field yields that text
trimmed — including the empty string, which is returned rather than falling
through — and this takes priority over an error message; an envelope with
only a string error message yields that message trimmed; the three concrete
examples of the claim hold. -/
theorem extract_order_amended (raw t m : List Char) :
    extract_response_text raw none = Except.ok (pyStrip raw) ∧
    extract_response_text raw
        (some (envParts0 (JValue.obj [(s2l "text", JValue.str t)]) [])) =
      Except.ok (pyStrip t) ∧
    extract_response_text raw
        (some (envParts0 (JValue.obj [(s2l "text", JValue.str t)]) [errField m])) =
      Except.ok (pyStrip t) ∧
    extract_response_text raw (some (JValue.obj [errField m])) =
      Except.ok (pyStrip m) ∧
    extract_response_text rawHi (some envHi) = Except.ok (s2l "Hi") ∧
    extract_response_text rawErr (some envErr) = Except.ok (s2l "bad key") ∧
    extract_response_text (s2l "abc") none = Except.ok (s2l "abc") :=
  ⟨rfl, rfl, rfl, rfl, rfl, rfl, rfl⟩

/-- C9: when the first part's text field is present but not a string, the
extraction does not return it: with no error message it returns the raw body
trimmed, with a string error message it returns that message trimmed; and it
returns the candidate text exactly when the field is a string. -/
theorem text_non_string_falls_through (raw t m : List Char) (v : JValue)
    (hv : ∀ s, v ≠ JValue.str s) :
    extract_response_text raw
        (some (envParts0 (JValue.obj [(s2l "text", v)]) [])) =
      Except.ok (pyStrip raw) ∧
    extract_response_text raw
        (some (envParts0 (JValue.obj [(s2l "text", v)]) [errField m])) =
      Except.ok (pyStrip m) ∧
    extract_response_text raw
        (some (envParts0 (JValue.obj [(s2l "text", JValue.str t)]) [])) =
      Except.ok (pyStrip t) := by
  cases v with
  | str s => exact absurd rfl (hv s)
  | null => exact ⟨rfl, rfl, rfl⟩
  | bool b => exact ⟨rfl, rfl, rfl⟩
  | num i => exact ⟨rfl, rfl, rfl⟩
  | arr xs => exact ⟨rfl, rfl, rfl⟩
  | obj fs => exact ⟨rfl, rfl, rfl⟩

/-- Witness for C9 at the concrete non-string value 7. -/
theorem text_non_string_falls_through_w :
    extract_response_text (s2l " x ")
        (some (envParts0 (JValue.obj [(s2l "text", JValue.num 7)]) [])) =
      Except.ok (pyStrip (s2l " x ")) ∧
    extract_response_text (s2l " x ")
        (some (envParts0 (JValue.obj [(s2l "text", JValue.num 7)]) [errField (s2l "M")])) =
      Except.ok (pyStrip (s2l "M")) ∧
    extract_response_text (s2l " x ")
        (some (envParts0 (JValue.obj [(s2l "text", JValue.str (s2l "T"))]) [])) =
      Except.ok (pyStrip (s2l "T")) :=
  text_non_string_falls_through (s2l " x ") (s2l "T") (s2l "M") (JValue.num 7)
    (fun _ h => JValue.noConfusion h)

theorem RateLimiter_wait_pos (I last now : ℚ) (hI : 0 < I) :
    (RateLimiter_wait I last now).grant = max now (last + I) ∧
    (RateLimiter_wait I last now).last = max now (last + I) := by
  unfold RateLimiter_wait
  rw [if_neg (not_le.mpr hI)]
  by_cases h : now < last + I
  · simp only [if_pos h]
    rw [max_eq_right (le_of_lt h)]
    exact ⟨rfl, rfl⟩
  · simp only [if_neg h]
    rw [max_eq_left (not_lt.mp h)]
    exact ⟨rfl, rfl⟩

theorem grantTimes_lb (I : ℚ) (hI : 0 < I) :
    ∀ (nows : List ℚ) (last : ℚ), ∀ g ∈ grantTimes I last nows, last + I ≤ g := by
  intro nows
  induction nows with
  | nil => intro last g hg; simp [grantTimes] at hg
  | cons now rest ih =>
    intro last g hg
    rcases RateLimiter_wait_pos I last now hI with ⟨hgr, hla⟩
    simp only [grantTimes, List.mem_cons] at hg
    rcases hg with hg | hg
    · rw [hg, hgr]
      exact le_max_right _ _
    · have hb := ih (RateLimiter_wait I last now).last g hg
      have h1 : last + I ≤ (RateLimiter_wait I last now).last := by
        rw [hla]; exact le_max_right _ _
      have h2 : last + I ≤ (RateLimiter_wait I last now).last + I :=
        le_trans h1 (by linarith)
      exact le_trans h2 hb

theorem grantTimes_pairwise (I : ℚ) (hI : 0 < I) :
    ∀ (nows : List ℚ) (last : ℚ),
      List.Pairwise (fun a b => a + I ≤ b) (grantTimes I last nows) := by
  intro nows
  induction nows with
  | nil => intro last; simp [grantTimes]
  | cons now rest ih =>
    intro last
    rcases RateLimiter_wait_pos I last now hI with ⟨hgr, hla⟩
    simp only [grantTimes]
    rw [List.pairwise_cons]
    constructor
    · intro b hb
      have := grantTimes_lb I hI rest (RateLimiter_wait I last now).last b hb
      rw [hla, ← hgr] at this
      exact this
    · exact ih (RateLimiter_wait I last now).last

/-- C4: within its critical section a wait() call computes next_allowed as
last plus the interval, sleeps for exactly the remaining time when the
current reading is before next_allowed and does not sleep otherwise, returns
control at the later of the current reading and next_allowed and commits
that same instant as the new last-granted time; consequently the grant times
of any serialized run of wait() calls are pairwise at least the interval
apart. -/
theorem rategate_mechanism_and_spacing (I last0 last now : ℚ) (nows : List ℚ)
    (hI : 0 < I) :
    (RateLimiter_wait I last now).grant = max now (last + I) ∧
    (RateLimiter_wait I last now).last = max now (last + I) ∧
    (now < last + I → (RateLimiter_wait I last now).slept = last + I - now) ∧
    (last + I ≤ now → (RateLimiter_wait I last now).slept = 0) ∧
    List.Pairwise (fun a b => a + I ≤ b) (grantTimes I last0 nows) := by
  rcases RateLimiter_wait_pos I last now hI with ⟨hgr, hla⟩
  refine ⟨hgr, hla, ?_, ?_, grantTimes_pairwise I hI nows last0⟩
  · intro h
    unfold RateLimiter_wait
    rw [if_neg (not_le.mpr hI), if_pos h]
  · intro h
    unfold RateLimiter_wait
    rw [if_neg (not_le.mpr hI), if_neg (not_lt.mpr h)]

/-- Witness for C4 at interval 1, initial last 0, readings 5 and 0. -/
theorem rategate_mechanism_and_spacing_w :
    (RateLimiter_wait 1 0 5).grant = max 5 (0 + 1) ∧
    (RateLimiter_wait 1 0 5).last = max 5 (0 + 1) ∧
    ((5 : ℚ) < 0 + 1 → (RateLimiter_wait 1 0 5).slept = 0 + 1 - 5) ∧
    ((0 : ℚ) + 1 ≤ 5 → (RateLimiter_wait 1 0 5).slept = 0) ∧
    List.Pairwise (fun a b => a + 1 ≤ b) (grantTimes 1 0 [5, 0]) :=
  rategate_mechanism_and_spacing 1 0 0 5 [5, 0] (by norm_num)

/-- C5: with a configured min_interval at most 0 the stored interval is
clamped to 0 and wait() is a no-op, sleeping for no time, returning control
at the current reading and leaving the last-granted state unchanged. -/
theorem rategate_noop_nonpositive (m last now : ℚ) (hm : m ≤ 0) :
    RateLimiter_wait (RateLimiter_init m) last now = ⟨0, now, last⟩ := by
  have h0 : RateLimiter_init m = 0 := by
    unfold RateLimiter_init
    exact max_eq_left hm
  rw [h0]
  unfold RateLimiter_wait
  rw [if_pos (le_refl (0 : ℚ))]

/-- Witness for C5 at configured interval -1. -/
theorem rategate_noop_nonpositive_w :
    RateLimiter_wait (RateLimiter_init (-1)) 5 3 = ⟨0, 3, 5⟩ :=
  rategate_noop_nonpositive (-1) 5 3 (by norm_num)

theorem enumFromN_length {α : Type} (xs : List α) :
    ∀ n, (enumFromN n xs).length = xs.length := by
  induction xs with
  | nil => intro n; rfl
  | cons x xs ih => intro n; simp [enumFromN, ih]

theorem enumFromN_map_snd {α : Type} (xs : List α) :
    ∀ n, (enumFromN n xs).map Prod.snd = xs := by
  induction xs with
  | nil => intro n; rfl
  | cons x xs ih => intro n; simp [enumFromN, ih]

theorem enumFromN_getElem {α : Type} (xs : List α) :
    ∀ n k, (enumFromN n xs)[k]? = (xs[k]?).map (fun x => (n + k, x)) := by
  induction xs with
  | nil => intro n k; simp [enumFromN]
  | cons x xs ih =>
    intro n k
    cases k with
    | zero => simp [enumFromN]
    | succ k =>
      have h : n + 1 + k = n + (k + 1) := by omega
      simp only [enumFromN, List.getElem?_cons_succ, ih, h]

/-- C6: the submission loop of main creates one future per credential and no
other, the k-th submitted task carries the 1-based index k plus 1 and the
k-th credential, the submitted keys in order are exactly the input list, and
the executor size is the minimum of the configured worker count and the
credential count. -/
theorem dispatcher_submission (keys : List (List Char)) (W k : Nat)
    (c : List Char) (hN : 1 ≤ keys.length) (hW : 1 ≤ W)
    (hk : keys[k]? = some c) :
    (submittedTasks keys).length = keys.length ∧
    (submittedTasks keys)[k]? = some (k + 1, c) ∧
    (submittedTasks keys).map Prod.snd = keys ∧
    effective_max_workers W keys.length = min W keys.length := by
  refine ⟨enumFromN_length keys 1, ?_, enumFromN_map_snd keys 1, rfl⟩
  unfold submittedTasks
  rw [enumFromN_getElem, hk]
  simp [Nat.add_comm 1 k]

/-- Witness for C6 on a two-credential list with three workers. -/
theorem dispatcher_submission_w :
    1 ≤ ([s2l "k1", s2l "k2"] : List (List Char)).length ∧
    1 ≤ 3 ∧
    ([s2l "k1", s2l "k2"] : List (List Char))[1]? = some (s2l "k2") ∧
    ((submittedTasks [s2l "k1", s2l "k2"]).length =
        ([s2l "k1", s2l "k2"] : List (List Char)).length ∧
      (submittedTasks [s2l "k1", s2l "k2"])[1]? = some (1 + 1, s2l "k2") ∧
      (submittedTasks [s2l "k1", s2l "k2"]).map Prod.snd = [s2l "k1", s2l "k2"] ∧
      effective_max_workers 3 ([s2l "k1", s2l "k2"] : List (List Char)).length =
        min 3 ([s2l "k1", s2l "k2"] : List (List Char)).length) :=
  ⟨by decide, by decide, rfl,
    dispatcher_submission [s2l "k1", s2l "k2"] 3 1 (s2l "k2") (by decide) (by decide) rfl⟩

theorem aggregateFrom_total (items : List ProbeTask) :
    ∀ st : AggState,
      (aggregateFrom st items).passed + (aggregateFrom st items).failed =
        st.passed + st.failed + items.length := by
  induction items with
  | nil => intro st; simp [aggregateFrom]
  | cons it rest ih =>
    intro st
    simp only [aggregateFrom, List.foldl_cons] at ih ⊢
    rw [ih]
    unfold processCompleted
    by_cases h : taskOk it <;> simp [h, List.length_cons] <;> omega

theorem aggregateFrom_passed (items : List ProbeTask) :
    ∀ st : AggState,
      (aggregateFrom st items).passed = st.passed + items.countP taskOk := by
  induction items with
  | nil => intro st; simp [aggregateFrom]
  | cons it rest ih =>
    intro st
    simp only [aggregateFrom, List.foldl_cons] at ih ⊢
    rw [ih]
    unfold processCompleted
    by_cases h : taskOk it <;> simp [h, List.countP_cons] <;> omega

theorem aggregateFrom_failed (items : List ProbeTask) :
    ∀ st : AggState,
      (aggregateFrom st items).failed =
        st.failed + items.countP (fun it => !taskOk it) := by
  induction items with
  | nil => intro st; simp [aggregateFrom]
  | cons it rest ih =>
    intro st
    simp only [aggregateFrom, List.foldl_cons] at ih ⊢
    rw [ih]
    unfold processCompleted
    by_cases h : taskOk it <;> simp [h, List.countP_cons] <;> omega

theorem aggregateFrom_active (items : List ProbeTask) :
    ∀ st : AggState,
      (aggregateFrom st items).active_keys =
        st.active_keys ++ (items.filter taskOk).map taskKey := by
  induction items with
  | nil => intro st; simp [aggregateFrom]
  | cons it rest ih =>
    intro st
    simp only [aggregateFrom, List.foldl_cons] at ih ⊢
    rw [ih]
    unfold processCompleted
    by_cases h : taskOk it <;> simp [h, List.filter_cons]

/-- C7: a transport-level failure surfaces as the RuntimeError of
run_request with the request failed prefix, check_key propagates it, the
dispatcher loop converts it into a failed outcome whose diagnostic is the
error text, incrementing only the fail counter and leaving the pass counter
and the active key list unchanged; and the aggregation loop always processes
every completed task, whatever its outcome, so no failure aborts the run. -/
theorem transport_error_handling (tr : Transport)
    (parse : List Char → Option JValue) (idx : Nat) (key reason : List Char)
    (st : AggState) (items : List ProbeTask)
    (htr : tr key = Except.error reason) :
    run_request tr key = Except.error (s2l "request failed: " ++ reason) ∧
    check_key idx key tr parse =
      Except.error (TaskErr.runtime (s2l "request failed: " ++ reason)) ∧
    resolveOutcome
        (Except.error (TaskErr.runtime (s2l "request failed: " ++ reason))) =
      (false, s2l "request failed: " ++ reason) ∧
    processCompleted st
        (idx, key, Except.error (TaskErr.runtime (s2l "request failed: " ++ reason))) =
      ⟨st.passed, st.failed + 1, st.active_keys⟩ ∧
    (aggregateFrom st items).passed + (aggregateFrom st items).failed =
      st.passed + st.failed + items.length := by
  have h1 : run_request tr key =
      Except.error (s2l "request failed: " ++ reason) := by
    unfold run_request
    rw [htr]
  refine ⟨h1, ?_, rfl, rfl, aggregateFrom_total items st⟩
  unfold check_key
  rw [h1]

/-- Witness for C7 with a transport that always fails with reason boom. -/
theorem transport_error_handling_w :
    (fun _ => Except.error (s2l "boom") : Transport) (s2l "K") =
      Except.error (s2l "boom") ∧
    (run_request (fun _ => Except.error (s2l "boom")) (s2l "K") =
        Except.error (s2l "request failed: " ++ s2l "boom") ∧
      check_key 1 (s2l "K") (fun _ => Except.error (s2l "boom")) (fun _ => none) =
        Except.error (TaskErr.runtime (s2l "request failed: " ++ s2l "boom")) ∧
      resolveOutcome
          (Except.error (TaskErr.runtime (s2l "request failed: " ++ s2l "boom"))) =
        (false, s2l "request failed: " ++ s2l "boom") ∧
      processCompleted initAgg
          (1, s2l "K",
            Except.error (TaskErr.runtime (s2l "request failed: " ++ s2l "boom"))) =
        ⟨initAgg.passed, initAgg.failed + 1, initAgg.active_keys⟩ ∧
      (aggregateFrom initAgg []).passed + (aggregateFrom initAgg []).failed =
        initAgg.passed + initAgg.failed + ([] : List ProbeTask).length) :=
  ⟨rfl, transport_error_handling (fun _ => Except.error (s2l "boom"))
    (fun _ => none) 1 (s2l "K") (s2l "boom") initAgg [] rfl⟩

/-- C8: with credentials A, B, C probed through the scenario transport (200
with a valid body for A, 429 for B, 403 with body denied for C), in every
completion order the run ends with pass count 1, fail count 2 and active key
list exactly A. -/
theorem scenario_three_keys (order : List ProbeTask)
    (hord : order.Perm (runTasks keysABC mockTransport mockParse)) :
    (aggregateFrom initAgg order).passed = 1 ∧
    (aggregateFrom initAgg order).failed = 2 ∧
    (aggregateFrom initAgg order).active_keys = [s2l "A"] := by
  have hc : order.countP taskOk = 1 := by
    rw [hord.countP_eq taskOk]
    rfl
  have hcf : order.countP (fun it => !taskOk it) = 2 := by
    rw [hord.countP_eq (fun it => !taskOk it)]
    rfl
  have hfs : (runTasks keysABC mockTransport mockParse).filter taskOk =
      [(1, s2l "A", Except.ok (⟨1, s2l "A", true, s2l "Hi"⟩ : ProbeResult))] := rfl
  have hperm := hord.filter taskOk
  rw [hfs] at hperm
  have hfe := List.perm_singleton.mp hperm
  refine ⟨?_, ?_, ?_⟩
  · rw [aggregateFrom_passed order initAgg, hc]
    rfl
  · rw [aggregateFrom_failed order initAgg, hcf]
    rfl
  · rw [aggregateFrom_active order initAgg, hfe]
    rfl

/-- Witness for C8 at the submission order itself. -/
theorem scenario_three_keys_w :
    (runTasks keysABC mockTransport mockParse).Perm
      (runTasks keysABC mockTransport mockParse) ∧
    ((aggregateFrom initAgg (runTasks keysABC mockTransport mockParse)).passed = 1 ∧
      (aggregateFrom initAgg (runTasks keysABC mockTransport mockParse)).failed = 2 ∧
      (aggregateFrom initAgg (runTasks keysABC mockTransport mockParse)).active_keys =
        [s2l "A"]) :=
  ⟨List.Perm.refl _,
    scenario_three_keys (runTasks keysABC mockTransport mockParse) (List.Perm.refl _)⟩

/-- C10: after processing any list of completed tasks, the pass and fail
counters sum to the number of tasks processed and the pass counter equals
the length of the active key list, which holds exactly the keys of the tasks
that passed, in completion order; for a full run, over any completion order
of the submitted tasks, the counters sum to the number of credentials. -/
theorem aggregation_invariants (keys : List (List Char)) (tr : Transport)
    (parse : List Char → Option JValue) (items order : List ProbeTask)
    (hord : order.Perm (runTasks keys tr parse)) :
    (aggregateFrom initAgg items).passed + (aggregateFrom initAgg items).failed =
      items.length ∧
    (aggregateFrom initAgg items).passed =
      (aggregateFrom initAgg items).active_keys.length ∧
    (aggregateFrom initAgg items).active_keys =
      (items.filter taskOk).map taskKey ∧
    (aggregateFrom initAgg order).passed + (aggregateFrom initAgg order).failed =
      keys.length ∧
    (aggregateFrom initAgg order).active_keys =
      (order.filter taskOk).map taskKey := by
  have hact : ∀ l : List ProbeTask,
      (aggregateFrom initAgg l).active_keys = (l.filter taskOk).map taskKey := by
    intro l
    rw [aggregateFrom_active l initAgg]
    rfl
  refine ⟨?_, ?_, hact items, ?_, hact order⟩
  · have := aggregateFrom_total items initAgg
    simpa [initAgg] using this
  · rw [aggregateFrom_passed items initAgg, hact items]
    simp [initAgg, List.length_map, List.countP_eq_length_filter]
  · have h1 := aggregateFrom_total order initAgg
    have h2 : order.length = keys.length := by
      rw [hord.length_eq]
      unfold runTasks
      rw [List.length_map, enumFromN_length]
    rw [h2] at h1
    simpa [initAgg] using h1

/-- Witness for C10 on the scenario run, with the submission order itself as
completion order and a two-task processed list. -/
theorem aggregation_invariants_w :
    (runTasks keysABC mockTransport mockParse).Perm
      (runTasks keysABC mockTransport mockParse) ∧
    ((aggregateFrom initAgg (runTasks keysABC mockTransport mockParse)).passed +
        (aggregateFrom initAgg (runTasks keysABC mockTransport mockParse)).failed =
      (runTasks keysABC mockTransport mockParse).length ∧
    (aggregateFrom initAgg (runTasks keysABC mockTransport mockParse)).passed =
      (aggregateFrom initAgg (runTasks keysABC mockTransport mockParse)).active_keys.length ∧
    (aggregateFrom initAgg (runTasks keysABC mockTransport mockParse)).active_keys =
      ((runTasks keysABC mockTransport mockParse).filter taskOk).map taskKey ∧
    (aggregateFrom initAgg (runTasks keysABC mockTransport mockParse)).passed +
        (aggregateFrom initAgg (runTasks keysABC mockTransport mockParse)).failed =
      keysABC.length ∧
    (aggregateFrom initAgg (runTasks keysABC mockTransport mockParse)).active_keys =
      ((runTasks keysABC mockTransport mockParse).filter taskOk).map taskKey) :=
  ⟨List.Perm.refl _,
    aggregation_invariants keysABC mockTransport mockParse
      (runTasks keysABC mockTransport mockParse)
      (runTasks keysABC mockTransport mockParse) (List.Perm.refl _)⟩
